import Mathlib

/-!
Shallow embedding of the litecall signaling server (src/server.js).

The server keeps four per-room maps (JS objects keyed by room id):
  connections      : roomId -> [clients]          (join order)
  lastSignals      : roomId -> last offer envelope
  recentCandidates : roomId -> [candidates from host]
  hosts            : roomId -> host client
plus a persisted call counter.  Clients (WebSocket handles) are modelled by
natural numbers; JS object maps by association lists over String keys, so
presence/absence of a key is explicit exactly as in the source.
-/

namespace Litecall

/-- A parsed JSON object envelope: the server only inspects the `type` field
(`parsed.type`); everything else is opaque payload, modelled by `data`. -/
structure Envelope where
  type : Option String
  data : Nat
deriving DecidableEq, Repr

/-- Result of `JSON.parse` plus the structure validation at server.js:272-284:
`fail` models a parse exception, `nonObject` models a value rejected by
`!parsed || typeof parsed !== "object"`, `object` a surviving object. -/
inductive ParseResult where
  | fail
  | nonObject
  | object (e : Envelope)
deriving DecidableEq, Repr

/-- An inbound frame: its text length (for the 10,000 guard at server.js:266)
and what parsing it would yield. -/
structure Frame where
  length : Nat
  parsed : ParseResult
deriving DecidableEq, Repr

/-- Observable effects of a handler: closing a channel with a code,
sending a `room-info` envelope, sending a signaling envelope immediately,
or sending a cached candidate after the 100ms `setTimeout` delay. -/
inductive Output where
  | closed (ws : Nat) (code : Nat)
  | sendRoomInfo (ws : Nat) (isFirst : Bool) (totalClients : Nat) (newClientJoined : Bool)
  | send (ws : Nat) (e : Envelope)
  | sendDelayed (ws : Nat) (e : Envelope)
deriving DecidableEq, Repr

/-- Lookup in a JS-object-like association list (`m[k]`, `undefined` = `none`). -/
def alookup {α : Type} : List (String × α) → String → Option α
  | [], _ => none
  | (k1, v) :: rest, k => if k1 = k then some v else alookup rest k

/-- Assignment `m[k] = v`. -/
def aset {α : Type} : List (String × α) → String → α → List (String × α)
  | [], k, v => [(k, v)]
  | (k1, v1) :: rest, k, v => if k1 = k then (k, v) :: rest else (k1, v1) :: aset rest k v

/-- Deletion `delete m[k]`. -/
def adel {α : Type} (m : List (String × α)) (k : String) : List (String × α) :=
  m.filter (fun p => p.1 ≠ k)

/-- The whole mutable registry state of server.js (lines 98-101 and 51). -/
structure ServerState where
  connections : List (String × List Nat)
  lastSignals : List (String × Envelope)
  recentCandidates : List (String × List Envelope)
  hosts : List (String × Nat)
  callCount : Nat
deriving DecidableEq, Repr

/-- State at process start: empty maps, counter as loaded (modelled as 0). -/
def initState : ServerState :=
  { connections := [], lastSignals := [], recentCandidates := [], hosts := [], callCount := 0 }

/-- One character admitted by `/^[a-z0-9]{1,20}$/i` (server.js:168). -/
def isRoomIdChar (c : Char) : Bool :=
  (decide ('a' ≤ c) && decide (c ≤ 'z')) ||
  (decide ('A' ≤ c) && decide (c ≤ 'Z')) ||
  (decide ('0' ≤ c) && decide (c ≤ '9'))

/-- `ROOM_ID_PATTERN.test roomId`: the whole string is 1-20 characters, each
alphanumeric, case-insensitive (server.js:168). -/
def roomIdPatternTest (s : String) : Bool :=
  decide (1 ≤ s.length) && decide (s.length ≤ 20) && s.data.all isRoomIdChar

/-- `connections[roomId]` defaulted to `[]` as by `if (!connections[roomId])
connections[roomId] = []` (server.js:181). -/
def roomMembers (s : ServerState) (r : String) : List Nat :=
  (alookup s.connections r).getD []

/-- server.js:214-235: notify the existing clients of the room (those with
`readyState === 1`) that someone joined, preserving each one's host role. -/
def notifyExisting (ready : Nat → Bool) (hostWs : Option Nat) (conns1 : List Nat)
    (ws : Nat) : List Output :=
  if conns1.length > 1 then
    (conns1.filter (fun c => c != ws && ready c)).map
      (fun c => Output.sendRoomInfo c (hostWs == some c) conns1.length true)
  else []

/-- server.js:237-258: if the room has a stored signal, send it to the
newcomer, followed (after the 100ms delay) by any stored host candidates. -/
def backfillSignals (s : ServerState) (roomId : String) (ws : Nat) : List Output :=
  match alookup s.lastSignals roomId with
  | some sig =>
    Output.send ws sig ::
      (match alookup s.recentCandidates roomId with
       | some cands =>
         if cands.length > 0 then cands.map (fun cd => Output.sendDelayed ws cd) else []
       | none => [])
  | none => []

/-- The connection handler, server.js:170-258.  `ready ws` models
`ws.readyState === 1` at fan-out time; `room?` is the `room` query parameter
(`none` when absent).  Returns the updated registry and the emitted effects. -/
def handleConnection (ready : Nat → Bool) (s : ServerState) (room? : Option String)
    (ws : Nat) : ServerState × List Output :=
  match room? with
  | none => (s, [Output.closed ws 1008])
  | some roomId =>
    if roomIdPatternTest roomId = false then
      (s, [Output.closed ws 1008])
    else
      let conns0 := roomMembers s roomId
      let isFirst : Bool := conns0.length == 0
      let hosts1 := if isFirst then aset s.hosts roomId ws else s.hosts
      let conns1 := conns0 ++ [ws]
      let connections1 := aset s.connections roomId conns1
      let callCount1 := if conns1.length = 2 then s.callCount + 1 else s.callCount
      let out1 := [Output.sendRoomInfo ws isFirst conns1.length false]
      let out2 := notifyExisting ready (alookup hosts1 roomId) conns1 ws
      let out3 := backfillSignals s roomId ws
      ({ s with connections := connections1, hosts := hosts1, callCount := callCount1 },
       out1 ++ out2 ++ out3)

/-- server.js:288-293: `if (parsed.type === "offer")` store the offer and
clear old candidates. -/
def recordOfferState (s : ServerState) (roomId : String) (parsed : Envelope) : ServerState :=
  if parsed.type = some "offer" then
    { s with lastSignals := aset s.lastSignals roomId parsed,
             recentCandidates := aset s.recentCandidates roomId [] }
  else s

/-- server.js:297-307: `if (parsed.type === "candidate" && hosts[roomId] === ws)`
push the candidate, shifting the oldest past 20. -/
def recordCandidateState (s : ServerState) (roomId : String) (ws : Nat)
    (parsed : Envelope) : ServerState :=
  if parsed.type = some "candidate" ∧ alookup s.hosts roomId = some ws then
    let cands0 := (alookup s.recentCandidates roomId).getD []
    let cands1 := cands0 ++ [parsed]
    let cands2 := if cands1.length > 20 then cands1.tail else cands1
    { s with recentCandidates := aset s.recentCandidates roomId cands2 }
  else s

/-- The message handler, server.js:260-330, for a member `ws` admitted to
`roomId`, receiving frame `f`. -/
def handleMessage (ready : Nat → Bool) (s : ServerState) (roomId : String) (ws : Nat)
    (f : Frame) : ServerState × List Output :=
  if f.length > 10000 then
    (s, [Output.closed ws 1009])
  else
    match f.parsed with
    | ParseResult.fail => (s, [])
    | ParseResult.nonObject => (s, [])
    | ParseResult.object parsed =>
      let s2 := recordCandidateState (recordOfferState s roomId parsed) roomId ws parsed
      match alookup s2.connections roomId with
      | none => (s2, [])
      | some roomClients =>
        (s2, (roomClients.filter (fun c => c != ws && ready c)).map
              (fun c => Output.send c parsed))

/-- The close handler, server.js:332-366, for member `ws` of `roomId`. -/
def handleClose (s : ServerState) (roomId : String) (ws : Nat) : ServerState :=
  let wasHost := alookup s.hosts roomId = some ws
  let conns1 := (roomMembers s roomId).filter (fun c => c != ws)
  let connections1 := aset s.connections roomId conns1
  let lastSignals1 := adel s.lastSignals roomId
  let recentCandidates1 := adel s.recentCandidates roomId
  if conns1.length = 0 then
    { connections := adel connections1 roomId,
      lastSignals := lastSignals1,
      recentCandidates := recentCandidates1,
      hosts := adel s.hosts roomId,
      callCount := s.callCount }
  else
    let hosts1 :=
      if wasHost then
        match conns1 with
        | [] => adel s.hosts roomId
        | c :: _ => aset s.hosts roomId c
      else s.hosts
    { connections := connections1,
      lastSignals := lastSignals1,
      recentCandidates := recentCandidates1,
      hosts := hosts1,
      callCount := s.callCount }

/-- An event the server reacts to.  `connect` and `message` carry the
readiness oracle used for `readyState === 1` checks at that instant. -/
inductive Event where
  | connect (ready : Nat → Bool) (room? : Option String) (ws : Nat)
  | message (ready : Nat → Bool) (roomId : String) (ws : Nat) (f : Frame)
  | close (roomId : String) (ws : Nat)

/-- The state transition of one event (effects dropped). -/
def stepState (s : ServerState) (e : Event) : ServerState :=
  match e with
  | Event.connect ready room? ws => (handleConnection ready s room? ws).1
  | Event.message ready r ws f => (handleMessage ready s r ws f).1
  | Event.close r ws => handleClose s r ws

/-- Run a sequence of events from a state. -/
def run (s : ServerState) (evs : List Event) : ServerState :=
  evs.foldl stepState s

/-- Host designation invariant: whenever a room record exists its member list
is non-empty and the recorded host is its first (oldest) member; absent rooms
have no host record. -/
def hostInv (s : ServerState) : Prop :=
  ∀ r : String,
    (alookup s.connections r = none → alookup s.hosts r = none) ∧
    (∀ conns, alookup s.connections r = some conns →
      conns ≠ [] ∧ alookup s.hosts r = conns.head?)

/-- Candidate cache bound: every cached candidate list has at most 20 entries. -/
def candInv (s : ServerState) : Prop :=
  ∀ r cands, alookup s.recentCandidates r = some cands → cands.length ≤ 20

/-! ### Concrete states used to exercise the theorems -/

/-- All channels open (`readyState === 1`). -/
def allReady : Nat → Bool := fun _ => true

/-- A three-member room `ab` whose host is member 1. -/
def sHost : ServerState :=
  { connections := [("ab", [1, 2, 3])], lastSignals := [],
    recentCandidates := [], hosts := [("ab", 1)], callCount := 1 }

/-- A candidate envelope. -/
def envC : Envelope := { type := some "candidate", data := 99 }

/-- A frame carrying `envC`. -/
def candFrame : Frame := { length := 50, parsed := ParseResult.object envC }

/-- A one-member room `ab` with a cached offer. -/
def sOffer : ServerState :=
  { connections := [("ab", [1])],
    lastSignals := [("ab", { type := some "offer", data := 42 })],
    recentCandidates := [], hosts := [("ab", 1)], callCount := 1 }

/-- A one-member room `ab` with one cached candidate but no cached offer. -/
def sCand : ServerState :=
  { connections := [("ab", [1])], lastSignals := [],
    recentCandidates := [("ab", [envC])], hosts := [("ab", 1)], callCount := 1 }

/-- A full (20-entry) candidate cache content. -/
def cands20 : List Envelope :=
  (List.range 20).map (fun i => { type := some "candidate", data := i })

/-- A two-member room `ab` whose candidate cache is full. -/
def s20 : ServerState :=
  { connections := [("ab", [1, 2])], lastSignals := [],
    recentCandidates := [("ab", cands20)], hosts := [("ab", 1)], callCount := 1 }

/-- A frame over the 10,000 length limit. -/
def bigFrame : Frame :=
  { length := 10001, parsed := ParseResult.object { type := some "offer", data := 7 } }

/-- A frame whose text is not valid JSON. -/
def malFrame : Frame := { length := 12, parsed := ParseResult.fail }

/-! ### Association-list lemmas -/

theorem alookup_aset_self {α : Type} (m : List (String × α)) (k : String) (v : α) :
    alookup (aset m k v) k = some v := by
  induction m with
  | nil => simp [aset, alookup]
  | cons p rest ih =>
    obtain ⟨k1, v1⟩ := p
    by_cases h : k1 = k
    · simp [aset, alookup, h]
    · simp [aset, alookup, h, ih]

theorem alookup_aset_ne {α : Type} (m : List (String × α)) (k k2 : String) (v : α)
    (h : k2 ≠ k) : alookup (aset m k v) k2 = alookup m k2 := by
  induction m with
  | nil => simp [aset, alookup, Ne.symm h]
  | cons p rest ih =>
    obtain ⟨k1, v1⟩ := p
    by_cases h1 : k1 = k
    · subst h1
      simp [aset, alookup, Ne.symm h]
    · simp only [aset, if_neg h1, alookup]
      by_cases h2 : k1 = k2 <;> simp [h2, ih]

theorem alookup_adel_self {α : Type} (m : List (String × α)) (k : String) :
    alookup (adel m k) k = none := by
  induction m with
  | nil => simp [adel, alookup]
  | cons p rest ih =>
    obtain ⟨k1, v1⟩ := p
    by_cases h : k1 = k
    · simpa [adel, alookup, h] using ih
    · simpa [adel, alookup, h] using ih

theorem alookup_adel_ne {α : Type} (m : List (String × α)) (k k2 : String)
    (h : k2 ≠ k) : alookup (adel m k) k2 = alookup m k2 := by
  induction m with
  | nil => simp [adel, alookup]
  | cons p rest ih =>
    obtain ⟨k1, v1⟩ := p
    by_cases h1 : k1 = k
    · subst h1
      simpa [adel, alookup, Ne.symm h] using ih
    · by_cases h2 : k1 = k2
      · subst h2
        simp [adel, alookup, h1]
      · simpa [adel, alookup, h1, h2] using ih

/-! ### Field-preservation lemmas -/

theorem recordOfferState_connections (s : ServerState) (r : String) (p : Envelope) :
    (recordOfferState s r p).connections = s.connections := by
  unfold recordOfferState
  split <;> rfl

theorem recordOfferState_hosts (s : ServerState) (r : String) (p : Envelope) :
    (recordOfferState s r p).hosts = s.hosts := by
  unfold recordOfferState
  split <;> rfl

theorem recordOfferState_callCount (s : ServerState) (r : String) (p : Envelope) :
    (recordOfferState s r p).callCount = s.callCount := by
  unfold recordOfferState
  split <;> rfl

theorem recordCandidateState_connections (s : ServerState) (r : String) (ws : Nat)
    (p : Envelope) : (recordCandidateState s r ws p).connections = s.connections := by
  unfold recordCandidateState
  split <;> rfl

theorem recordCandidateState_hosts (s : ServerState) (r : String) (ws : Nat)
    (p : Envelope) : (recordCandidateState s r ws p).hosts = s.hosts := by
  unfold recordCandidateState
  split <;> rfl

theorem recordCandidateState_callCount (s : ServerState) (r : String) (ws : Nat)
    (p : Envelope) : (recordCandidateState s r ws p).callCount = s.callCount := by
  unfold recordCandidateState
  split <;> rfl

theorem recordCandidateState_lastSignals (s : ServerState) (r : String) (ws : Nat)
    (p : Envelope) : (recordCandidateState s r ws p).lastSignals = s.lastSignals := by
  unfold recordCandidateState
  split <;> rfl

theorem handleMessage_connections (ready : Nat → Bool) (s : ServerState) (r : String)
    (ws : Nat) (f : Frame) :
    (handleMessage ready s r ws f).1.connections = s.connections := by
  unfold handleMessage
  split
  · rfl
  · split
    · rfl
    · rfl
    · dsimp only
      split <;> rw [recordCandidateState_connections, recordOfferState_connections]

theorem handleMessage_hosts (ready : Nat → Bool) (s : ServerState) (r : String)
    (ws : Nat) (f : Frame) :
    (handleMessage ready s r ws f).1.hosts = s.hosts := by
  unfold handleMessage
  split
  · rfl
  · split
    · rfl
    · rfl
    · dsimp only
      split <;> rw [recordCandidateState_hosts, recordOfferState_hosts]

theorem handleMessage_callCount (ready : Nat → Bool) (s : ServerState) (r : String)
    (ws : Nat) (f : Frame) :
    (handleMessage ready s r ws f).1.callCount = s.callCount := by
  unfold handleMessage
  split
  · rfl
  · split
    · rfl
    · rfl
    · dsimp only
      split <;> rw [recordCandidateState_callCount, recordOfferState_callCount]

theorem handleClose_callCount (s : ServerState) (r : String) (ws : Nat) :
    (handleClose s r ws).callCount = s.callCount := by
  unfold handleClose
  dsimp only
  split <;> rfl

theorem handleConnection_lastSignals (ready : Nat → Bool) (s : ServerState)
    (room? : Option String) (ws : Nat) :
    (handleConnection ready s room? ws).1.lastSignals = s.lastSignals := by
  unfold handleConnection
  match room? with
  | none => rfl
  | some r =>
    dsimp only
    split <;> rfl

theorem handleConnection_recentCandidates (ready : Nat → Bool) (s : ServerState)
    (room? : Option String) (ws : Nat) :
    (handleConnection ready s room? ws).1.recentCandidates = s.recentCandidates := by
  unfold handleConnection
  match room? with
  | none => rfl
  | some r =>
    dsimp only
    split <;> rfl

/-! ### Invariants of reachable states -/

theorem hostInv_initState : hostInv initState := by
  intro r
  constructor
  · intro _
    rfl
  · intro conns hc
    exact absurd hc (by simp [initState, alookup])

theorem candInv_initState : candInv initState := by
  intro r cands hc
  exact absurd hc (by simp [initState, alookup])

theorem hostInv_connect (ready : Nat → Bool) (s : ServerState) (room? : Option String)
    (ws : Nat) (h : hostInv s) : hostInv (handleConnection ready s room? ws).1 := by
  match room? with
  | none => exact h
  | some roomId =>
    by_cases hv : roomIdPatternTest roomId = false
    · simpa [handleConnection, hv] using h
    · unfold handleConnection roomMembers
      dsimp only
      rw [if_neg hv]
      dsimp only
      intro r2
      by_cases hr : r2 = roomId
      · subst hr
        rcases hconns : alookup s.connections r2 with _ | conns
        · simp only [hconns, Option.getD_none, List.nil_append, List.length_nil,
            Nat.zero_eq, beq_self_eq_true, if_pos]
          constructor
          · intro hc
            rw [alookup_aset_self] at hc
            exact absurd hc (by simp)
          · intro conns2 hc
            rw [alookup_aset_self] at hc
            injection hc with hc
            subst hc
            simp [alookup_aset_self]
        · obtain ⟨hne, hh⟩ := (h r2).2 conns hconns
          obtain ⟨c0, t0, rfl⟩ : ∃ c0 t0, conns = c0 :: t0 := by
            cases conns with
            | nil => exact absurd rfl hne
            | cons a b => exact ⟨a, b, rfl⟩
          simp only [hconns, Option.getD_some]
          have hbeq : ((c0 :: t0).length == 0) = false := by simp
          simp only [hbeq, Bool.false_eq_true, if_false]
          constructor
          · intro hc
            rw [alookup_aset_self] at hc
            exact absurd hc (by simp)
          · intro conns2 hc
            rw [alookup_aset_self] at hc
            injection hc with hc
            subst hc
            refine ⟨by simp, ?_⟩
            simpa using hh
      · constructor
        · intro hc
          rw [alookup_aset_ne _ _ _ _ hr] at hc
          split
          · rw [alookup_aset_ne _ _ _ _ hr]
            exact (h r2).1 hc
          · exact (h r2).1 hc
        · intro conns2 hc
          rw [alookup_aset_ne _ _ _ _ hr] at hc
          split
          · rw [alookup_aset_ne _ _ _ _ hr]
            exact (h r2).2 conns2 hc
          · exact (h r2).2 conns2 hc

theorem hostInv_message (ready : Nat → Bool) (s : ServerState) (r : String) (ws : Nat)
    (f : Frame) (h : hostInv s) : hostInv (handleMessage ready s r ws f).1 := by
  unfold hostInv
  simp only [handleMessage_connections, handleMessage_hosts]
  exact h

theorem hostInv_close (s : ServerState) (r : String) (ws : Nat) (h : hostInv s) :
    hostInv (handleClose s r ws) := by
  unfold handleClose roomMembers
  dsimp only
  rcases hconns : alookup s.connections r with _ | conns
  · have hhost : alookup s.hosts r = none := (h r).1 hconns
    simp only [hconns, Option.getD_none, List.filter_nil, List.length_nil, if_pos]
    intro r2
    by_cases hr : r2 = r
    · subst hr
      refine ⟨fun _ => alookup_adel_self _ _, fun conns2 hc => absurd hc ?_⟩
      simp [alookup_adel_self]
    · refine ⟨fun hc => ?_, fun conns2 hc => ?_⟩
      · rw [alookup_adel_ne _ _ _ hr, alookup_aset_ne _ _ _ _ hr] at hc
        rw [alookup_adel_ne _ _ _ hr]
        exact (h r2).1 hc
      · rw [alookup_adel_ne _ _ _ hr, alookup_aset_ne _ _ _ _ hr] at hc
        rw [alookup_adel_ne _ _ _ hr]
        exact (h r2).2 conns2 hc
  · obtain ⟨hne, hh⟩ := (h r).2 conns hconns
    obtain ⟨c0, t0, rfl⟩ : ∃ c0 t0, conns = c0 :: t0 := by
      cases conns with
      | nil => exact absurd rfl hne
      | cons a b => exact ⟨a, b, rfl⟩
    simp only [hconns, Option.getD_some]
    simp only [List.head?_cons] at hh
    split
    · -- the room became empty: everything about r is deleted
      intro r2
      by_cases hr : r2 = r
      · subst hr
        refine ⟨fun _ => alookup_adel_self _ _, fun conns2 hc => absurd hc ?_⟩
        simp [alookup_adel_self]
      · refine ⟨fun hc => ?_, fun conns2 hc => ?_⟩
        · rw [alookup_adel_ne _ _ _ hr, alookup_aset_ne _ _ _ _ hr] at hc
          rw [alookup_adel_ne _ _ _ hr]
          exact (h r2).1 hc
        · rw [alookup_adel_ne _ _ _ hr, alookup_aset_ne _ _ _ _ hr] at hc
          rw [alookup_adel_ne _ _ _ hr]
          exact (h r2).2 conns2 hc
    · rename_i hlen
      intro r2
      by_cases hr : r2 = r
      · subst hr
        constructor
        · intro hc
          rw [alookup_aset_self] at hc
          exact absurd hc (by simp)
        · intro conns2 hc
          rw [alookup_aset_self] at hc
          injection hc with hc
          subst hc
          refine ⟨fun hnil => hlen (by rw [hnil]; rfl), ?_⟩
          by_cases hcw : c0 = ws
          · -- the host closed: reassigned to the head of the filtered list
            subst hcw
            rw [if_pos hh]
            rcases hflt : List.filter (fun c => c != c0) (c0 :: t0) with _ | ⟨c1, t1⟩
            · exact absurd (by rw [hflt]; rfl) hlen
            · rw [alookup_aset_self]
              rfl
          · -- a guest closed: the old host survives as head of the filter
            have hwh : ¬ alookup s.hosts r2 = some ws := by
              rw [hh]
              intro hcon
              injection hcon with hcon
              exact hcw hcon
            rw [if_neg hwh]
            have hfc : List.filter (fun c => c != ws) (c0 :: t0)
                = c0 :: List.filter (fun c => c != ws) t0 :=
              List.filter_cons_of_pos (by simpa using hcw)
            rw [hfc, List.head?_cons, hh]
      · constructor
        · intro hc
          rw [alookup_aset_ne _ _ _ _ hr] at hc
          split
          · split
            · rw [alookup_adel_ne _ _ _ hr]
              exact (h r2).1 hc
            · rw [alookup_aset_ne _ _ _ _ hr]
              exact (h r2).1 hc
          · exact (h r2).1 hc
        · intro conns2 hc
          rw [alookup_aset_ne _ _ _ _ hr] at hc
          split
          · split
            · rw [alookup_adel_ne _ _ _ hr]
              exact (h r2).2 conns2 hc
            · rw [alookup_aset_ne _ _ _ _ hr]
              exact (h r2).2 conns2 hc
          · exact (h r2).2 conns2 hc

theorem stepState_hostInv (s : ServerState) (e : Event) (h : hostInv s) :
    hostInv (stepState s e) := by
  cases e with
  | connect ready room? ws => exact hostInv_connect ready s room? ws h
  | message ready r ws f => exact hostInv_message ready s r ws f h
  | close r ws => exact hostInv_close s r ws h

theorem candInv_recordOffer (s : ServerState) (r : String) (p : Envelope)
    (h : candInv s) : candInv (recordOfferState s r p) := by
  unfold recordOfferState
  split
  · intro r2 cands hc
    dsimp only at hc
    by_cases hr : r2 = r
    · subst hr
      rw [alookup_aset_self] at hc
      injection hc with hc
      subst hc
      simp
    · rw [alookup_aset_ne _ _ _ _ hr] at hc
      exact h r2 cands hc
  · exact h

theorem candInv_recordCandidate (s : ServerState) (r : String) (ws : Nat) (p : Envelope)
    (h : candInv s) : candInv (recordCandidateState s r ws p) := by
  unfold recordCandidateState
  split
  · dsimp only
    intro r2 cands hc
    by_cases hr : r2 = r
    · subst hr
      rw [alookup_aset_self] at hc
      injection hc with hc
      subst hc
      have h0 : ((alookup s.recentCandidates r2).getD []).length ≤ 20 := by
        rcases hrc : alookup s.recentCandidates r2 with _ | cs
        · simp
        · simpa using h r2 cs hrc
      split
      · rw [List.length_tail]
        simp only [List.length_append, List.length_cons, List.length_nil]
        omega
      · rename_i hgt
        simp only [List.length_append, List.length_cons, List.length_nil] at hgt ⊢
        omega
    · rw [alookup_aset_ne _ _ _ _ hr] at hc
      exact h r2 cands hc
  · exact h

theorem candInv_message (ready : Nat → Bool) (s : ServerState) (r : String) (ws : Nat)
    (f : Frame) (h : candInv s) : candInv (handleMessage ready s r ws f).1 := by
  unfold handleMessage
  split
  · exact h
  · split
    · exact h
    · exact h
    · dsimp only
      split
      · exact candInv_recordCandidate _ _ _ _ (candInv_recordOffer _ _ _ h)
      · exact candInv_recordCandidate _ _ _ _ (candInv_recordOffer _ _ _ h)

theorem handleClose_recentCandidates (s : ServerState) (r : String) (ws : Nat) :
    (handleClose s r ws).recentCandidates = adel s.recentCandidates r := by
  unfold handleClose
  dsimp only
  split <;> rfl

theorem handleClose_lastSignals (s : ServerState) (r : String) (ws : Nat) :
    (handleClose s r ws).lastSignals = adel s.lastSignals r := by
  unfold handleClose
  dsimp only
  split <;> rfl

theorem candInv_close (s : ServerState) (r : String) (ws : Nat) (h : candInv s) :
    candInv (handleClose s r ws) := by
  intro r2 cands hc
  rw [handleClose_recentCandidates] at hc
  by_cases hr : r2 = r
  · subst hr
    rw [alookup_adel_self] at hc
    cases hc
  · rw [alookup_adel_ne _ _ _ hr] at hc
    exact h r2 cands hc

theorem candInv_connect (ready : Nat → Bool) (s : ServerState) (room? : Option String)
    (ws : Nat) (h : candInv s) : candInv (handleConnection ready s room? ws).1 := by
  unfold candInv
  simp only [handleConnection_recentCandidates]
  exact h

theorem stepState_candInv (s : ServerState) (e : Event) (h : candInv s) :
    candInv (stepState s e) := by
  cases e with
  | connect ready room? ws => exact candInv_connect ready s room? ws h
  | message ready r ws f => exact candInv_message ready s r ws f h
  | close r ws => exact candInv_close s r ws h

theorem run_preserves {P : ServerState → Prop}
    (hstep : ∀ s e, P s → P (stepState s e)) :
    ∀ (evs : List Event) (s : ServerState), P s → P (run s evs) := by
  intro evs
  induction evs with
  | nil => exact fun s hs => hs
  | cons e t ih => exact fun s hs => ih (stepState s e) (hstep s e hs)

theorem run_hostInv (evs : List Event) : hostInv (run initState evs) :=
  run_preserves stepState_hostInv evs initState hostInv_initState

theorem run_candInv (evs : List Event) : candInv (run initState evs) :=
  run_preserves stepState_candInv evs initState candInv_initState

/-! ### Characterizations of the connect handler on a valid room id -/

theorem handleConnection_valid_state (ready : Nat → Bool) (s : ServerState) (r : String)
    (ws : Nat) (hv : roomIdPatternTest r = true) :
    (handleConnection ready s (some r) ws).1 =
      { s with
        connections := aset s.connections r (roomMembers s r ++ [ws]),
        hosts := if ((roomMembers s r).length == 0) = true then aset s.hosts r ws
                 else s.hosts,
        callCount := if (roomMembers s r ++ [ws]).length = 2 then s.callCount + 1
                     else s.callCount } := by
  unfold handleConnection
  dsimp only
  rw [if_neg (by simp [hv])]

theorem handleConnection_valid_outputs (ready : Nat → Bool) (s : ServerState) (r : String)
    (ws : Nat) (hv : roomIdPatternTest r = true) :
    (handleConnection ready s (some r) ws).2 =
      Output.sendRoomInfo ws ((roomMembers s r).length == 0) (roomMembers s r ++ [ws]).length
          false ::
        (notifyExisting ready
          (alookup (if ((roomMembers s r).length == 0) = true then aset s.hosts r ws
                    else s.hosts) r)
          (roomMembers s r ++ [ws]) ws
         ++ backfillSignals s r ws) := by
  unfold handleConnection
  dsimp only
  rw [if_neg (by simp [hv])]
  simp

theorem mem_notifyExisting (ready : Nat → Bool) (hostWs : Option Nat) (conns1 : List Nat)
    (ws : Nat) (o : Output) (hm : o ∈ notifyExisting ready hostWs conns1 ws) :
    ∃ c, o = Output.sendRoomInfo c (hostWs == some c) conns1.length true := by
  unfold notifyExisting at hm
  split at hm
  · obtain ⟨c, _, hc⟩ := List.mem_map.mp hm
    exact ⟨c, hc.symm⟩
  · cases hm

theorem backfillSignals_of_none (s : ServerState) (r : String) (ws : Nat)
    (hno : alookup s.lastSignals r = none) : backfillSignals s r ws = [] := by
  unfold backfillSignals
  rw [hno]

theorem handleMessage_state (ready : Nat → Bool) (s : ServerState) (r : String) (ws : Nat)
    (f : Frame) (e : Envelope) (hlen : ¬ f.length > 10000)
    (hp : f.parsed = ParseResult.object e) :
    (handleMessage ready s r ws f).1 =
      recordCandidateState (recordOfferState s r e) r ws e := by
  unfold handleMessage
  rw [if_neg hlen, hp]
  dsimp only
  split <;> rfl

theorem connect_no_signal_of_no_offer (ready : Nat → Bool) (s : ServerState) (r : String)
    (ws m : Nat) (e : Envelope) (hno : alookup s.lastSignals r = none) :
    Output.send m e ∉ (handleConnection ready s (some r) ws).2
    ∧ Output.sendDelayed m e ∉ (handleConnection ready s (some r) ws).2 := by
  by_cases hv : roomIdPatternTest r = true
  · rw [handleConnection_valid_outputs ready s r ws hv, backfillSignals_of_none s r ws hno]
    constructor <;> intro hmem <;> rw [List.append_nil, List.mem_cons] at hmem
    · rcases hmem with h1 | h2
      · cases h1
      · obtain ⟨c, hc⟩ := mem_notifyExisting _ _ _ _ _ h2
        cases hc
    · rcases hmem with h1 | h2
      · cases h1
      · obtain ⟨c, hc⟩ := mem_notifyExisting _ _ _ _ _ h2
        cases hc
  · have hv2 : roomIdPatternTest r = false := by
      cases hq : roomIdPatternTest r
      · rfl
      · exact absurd hq hv
    have hcl : handleConnection ready s (some r) ws = (s, [Output.closed ws 1008]) := by
      unfold handleConnection
      dsimp only
      rw [if_pos hv2]
    rw [hcl]
    constructor <;> intro hmem <;> simp at hmem

/-! ### The claims -/

/-- Claim C1: along every sequence of admissions and disconnects, a room's
recorded host is the first (oldest) member of its join-ordered member list;
an admission reports `isFirst = true` to the newcomer exactly when the room
was empty, and then records that newcomer as host; and when the recorded host
closes while members remain, the host designation is reassigned to the first
remaining member in join order. -/
theorem claim_C1 :
    (∀ evs : List Event, hostInv (run initState evs))
  ∧ (∀ (ready : Nat → Bool) (s : ServerState) (r : String) (ws : Nat),
      roomIdPatternTest r = true →
      ((handleConnection ready s (some r) ws).2.head? =
          some (Output.sendRoomInfo ws ((roomMembers s r).length == 0)
            ((roomMembers s r).length + 1) false)
        ∧ (roomMembers s r = [] →
            alookup (handleConnection ready s (some r) ws).1.hosts r = some ws)))
  ∧ (∀ (s : ServerState) (r : String) (ws c : Nat) (t : List Nat),
      alookup s.hosts r = some ws →
      (roomMembers s r).filter (fun x => x != ws) = c :: t →
      alookup (handleClose s r ws).hosts r = some c) := by
  refine ⟨run_hostInv, fun ready s r ws hv => ⟨?_, ?_⟩, fun s r ws c t hh hflt => ?_⟩
  · rw [handleConnection_valid_outputs ready s r ws hv]
    simp
  · intro hempty
    rw [handleConnection_valid_state ready s r ws hv]
    dsimp only
    rw [hempty]
    simp [alookup_aset_self]
  · unfold handleClose roomMembers
    dsimp only
    unfold roomMembers at hflt
    simp only [hflt]
    rw [if_neg (by simp)]
    rw [if_pos hh]
    exact alookup_aset_self _ _ _

/-- Witness for C1: in the three-member room `ab` with host 1, closing member
1 reassigns the host designation to member 2, the oldest survivor. -/
theorem claim_C1_witness :
    alookup (handleClose sHost "ab" 1).hosts "ab" = some 2 :=
  claim_C1.2.2 sHost "ab" 1 2 [3] (by decide) (by decide)

/-- Claim C2: any member disconnect clears both the room's cached offer and
its cached candidate list, so a member admitted to that room right after the
disconnect is sent no cached signal (no immediate envelope and no delayed
candidate). -/
theorem claim_C2 :
    (∀ (s : ServerState) (r : String) (ws : Nat),
      alookup (handleClose s r ws).lastSignals r = none
      ∧ alookup (handleClose s r ws).recentCandidates r = none)
  ∧ (∀ (s : ServerState) (r : String) (ws : Nat) (ready : Nat → Bool) (ws2 m : Nat)
      (e : Envelope),
      Output.send m e ∉ (handleConnection ready (handleClose s r ws) (some r) ws2).2
      ∧ Output.sendDelayed m e ∉
          (handleConnection ready (handleClose s r ws) (some r) ws2).2) := by
  constructor
  · intro s r ws
    rw [handleClose_lastSignals, handleClose_recentCandidates]
    exact ⟨alookup_adel_self _ _, alookup_adel_self _ _⟩
  · intro s r ws ready ws2 m e
    have hno : alookup (handleClose s r ws).lastSignals r = none := by
      rw [handleClose_lastSignals]
      exact alookup_adel_self _ _
    exact connect_no_signal_of_no_offer ready (handleClose s r ws) r ws2 m e hno

/-- Claim C3: a newly admitted member is sent the cached offer iff one exists
at admission time, and an inbound `offer` envelope replaces the cached offer
and resets the cached candidate list to empty. -/
theorem claim_C3 :
    (∀ (ready : Nat → Bool) (s : ServerState) (r : String) (ws : Nat) (sig : Envelope),
      roomIdPatternTest r = true → alookup s.lastSignals r = some sig →
      Output.send ws sig ∈ (handleConnection ready s (some r) ws).2)
  ∧ (∀ (ready : Nat → Bool) (s : ServerState) (r : String) (ws m : Nat) (e : Envelope),
      alookup s.lastSignals r = none →
      Output.send m e ∉ (handleConnection ready s (some r) ws).2)
  ∧ (∀ (ready : Nat → Bool) (s : ServerState) (r : String) (ws : Nat) (f : Frame)
      (e : Envelope),
      ¬ f.length > 10000 → f.parsed = ParseResult.object e → e.type = some "offer" →
      alookup (handleMessage ready s r ws f).1.lastSignals r = some e
      ∧ alookup (handleMessage ready s r ws f).1.recentCandidates r = some []) := by
  refine ⟨fun ready s r ws sig hv hsig => ?_,
    fun ready s r ws m e hno => (connect_no_signal_of_no_offer ready s r ws m e hno).1,
    fun ready s r ws f e hlen hp ht => ?_⟩
  · rw [handleConnection_valid_outputs ready s r ws hv]
    unfold backfillSignals
    rw [hsig]
    simp
  · rw [handleMessage_state ready s r ws f e hlen hp]
    have hcand : recordCandidateState (recordOfferState s r e) r ws e
        = recordOfferState s r e := by
      unfold recordCandidateState
      rw [if_neg (fun hand => by rw [ht] at hand; exact absurd hand.1 (by decide))]
    have hoff : recordOfferState s r e =
        { s with lastSignals := aset s.lastSignals r e,
                 recentCandidates := aset s.recentCandidates r [] } := by
      unfold recordOfferState
      rw [if_pos ht]
    rw [hcand, hoff]
    exact ⟨alookup_aset_self _ _ _, alookup_aset_self _ _ _⟩

/-- Witness for C3: joining room `ab`, which holds a cached offer, delivers
that offer to the newcomer. -/
theorem claim_C3_witness :
    Output.send 2 { type := some "offer", data := 42 } ∈
      (handleConnection allReady sOffer (some "ab") 2).2 :=
  claim_C3.1 allReady sOffer "ab" 2 { type := some "offer", data := 42 }
    (by decide) (by decide)

/-- Claim C4 counterexample: a single room key whose membership reaches two on
an admission twice (second member joins, leaves, and a replacement joins)
increments the counter twice, not "exactly once per room". -/
theorem claim_C4_counterexample :
    (run initState
      [Event.connect allReady (some "ab") 1,
       Event.connect allReady (some "ab") 2,
       Event.close "ab" 2,
       Event.connect allReady (some "ab") 3]).callCount = 2 := by decide

/-- Claim C4 as amended: the persisted counter is incremented exactly on
admissions that bring a room's membership count to two, and is unchanged by
every other event; per room key this recurs each time membership returns to
two, so it is not at most once per room. -/
theorem claim_C4 :
    (∀ (ready : Nat → Bool) (s : ServerState) (r : String) (ws : Nat),
      roomIdPatternTest r = true →
      (handleConnection ready s (some r) ws).1.callCount =
        (if (roomMembers s r).length + 1 = 2 then s.callCount + 1 else s.callCount))
  ∧ (∀ (ready : Nat → Bool) (s : ServerState) (ws : Nat),
      (handleConnection ready s none ws).1.callCount = s.callCount)
  ∧ (∀ (ready : Nat → Bool) (s : ServerState) (r : String) (ws : Nat),
      roomIdPatternTest r = false →
      (handleConnection ready s (some r) ws).1.callCount = s.callCount)
  ∧ (∀ (ready : Nat → Bool) (s : ServerState) (r : String) (ws : Nat) (f : Frame),
      (handleMessage ready s r ws f).1.callCount = s.callCount)
  ∧ (∀ (s : ServerState) (r : String) (ws : Nat),
      (handleClose s r ws).callCount = s.callCount) := by
  refine ⟨fun ready s r ws hv => ?_, fun ready s ws => rfl,
    fun ready s r ws hv => ?_, handleMessage_callCount, handleClose_callCount⟩
  · rw [handleConnection_valid_state ready s r ws hv]
    dsimp only
    simp
  · unfold handleConnection
    dsimp only
    rw [if_pos hv]

/-- Witness for C4 (amended): admitting a second member to the one-member room
`ab` takes the counter through the increment branch. -/
theorem claim_C4_witness :
    (handleConnection allReady sOffer (some "ab") 2).1.callCount =
      (if (roomMembers sOffer "ab").length + 1 = 2 then sOffer.callCount + 1
       else sOffer.callCount) :=
  claim_C4.1 allReady sOffer "ab" 2 (by decide)

/-- Claim C5: a frame longer than 10,000 closes that member's channel with
code 1009; the registry state is unchanged and nothing is relayed. -/
theorem claim_C5 (ready : Nat → Bool) (s : ServerState) (r : String) (ws : Nat) (f : Frame)
    (hbig : f.length > 10000) :
    handleMessage ready s r ws f = (s, [Output.closed ws 1009]) := by
  unfold handleMessage
  rw [if_pos hbig]

/-- Witness for C5: a 10,001-length frame is answered only with close 1009. -/
theorem claim_C5_witness :
    handleMessage allReady initState "ab" 1 bigFrame = (initState, [Output.closed 1 1009]) :=
  claim_C5 allReady initState "ab" 1 bigFrame (by decide)

/-- Claim C6: a connection whose room parameter is absent, or fails the
`[a-z0-9]{1,20}` case-insensitive pattern (the empty string included), is
closed with code 1008 and the registry is left untouched, so no room entry is
created. -/
theorem claim_C6 :
    (∀ (ready : Nat → Bool) (s : ServerState) (ws : Nat),
      handleConnection ready s none ws = (s, [Output.closed ws 1008]))
  ∧ (∀ (ready : Nat → Bool) (s : ServerState) (r : String) (ws : Nat),
      roomIdPatternTest r = false →
      handleConnection ready s (some r) ws = (s, [Output.closed ws 1008]))
  ∧ roomIdPatternTest "" = false := by
  refine ⟨fun ready s ws => rfl, fun ready s r ws hv => ?_, by decide⟩
  unfold handleConnection
  dsimp only
  rw [if_pos hv]

/-- Witness for C6: `room_1` fails the pattern (underscore) and the connection
is rejected with 1008 on the untouched initial state. -/
theorem claim_C6_witness :
    roomIdPatternTest "room_1" = false
    ∧ handleConnection allReady initState (some "room_1") 5 =
        (initState, [Output.closed 5 1008]) :=
  ⟨by decide, claim_C6.2.1 allReady initState "room_1" 5 (by decide)⟩

/-- Claim C7: along every event sequence every room's candidate cache holds at
most 20 entries, and recording a host candidate while the cache holds exactly
20 drops the oldest entry and appends the new one (FIFO). -/
theorem claim_C7 :
    (∀ (evs : List Event) (r : String) (cands : List Envelope),
      alookup (run initState evs).recentCandidates r = some cands → cands.length ≤ 20)
  ∧ (∀ (ready : Nat → Bool) (s : ServerState) (r : String) (ws : Nat) (f : Frame)
      (e : Envelope) (cands : List Envelope),
      ¬ f.length > 10000 → f.parsed = ParseResult.object e → e.type = some "candidate" →
      alookup s.hosts r = some ws → alookup s.recentCandidates r = some cands →
      cands.length = 20 →
      alookup (handleMessage ready s r ws f).1.recentCandidates r =
        some (cands.tail ++ [e])) := by
  refine ⟨run_candInv, fun ready s r ws f e cands hlen hp ht hh hc h20 => ?_⟩
  rw [handleMessage_state ready s r ws f e hlen hp]
  have hoff : recordOfferState s r e = s := by
    unfold recordOfferState
    rw [if_neg (fun hh2 => by rw [ht] at hh2; exact absurd hh2 (by decide))]
  rw [hoff]
  unfold recordCandidateState
  rw [if_pos ⟨ht, hh⟩]
  dsimp only
  rw [hc]
  simp only [Option.getD_some]
  rw [if_pos (by simp [h20])]
  rw [alookup_aset_self]
  obtain ⟨c0, t0, rfl⟩ : ∃ c0 t0, cands = c0 :: t0 := by
    cases cands with
    | nil => simp at h20
    | cons a b => exact ⟨a, b, rfl⟩
  rfl

/-- Witness for C7: pushing a 21st candidate into the full cache of room `ab`
evicts the oldest and appends the new one. -/
theorem claim_C7_witness :
    alookup (handleMessage allReady s20 "ab" 1 candFrame).1.recentCandidates "ab" =
      some (cands20.tail ++ [envC]) :=
  claim_C7.2 allReady s20 "ab" 1 candFrame envC cands20 (by decide) (by decide)
    (by decide) (by decide) (by decide) (by decide)

/-- Claim C8: a candidate envelope from a member that is not the room's host
leaves the registry untouched (in particular nothing is cached) and is only
relayed to the other ready members of the room. -/
theorem claim_C8 (ready : Nat → Bool) (s : ServerState) (r : String) (ws : Nat) (f : Frame)
    (e : Envelope) (clients : List Nat) (hlen : ¬ f.length > 10000)
    (hp : f.parsed = ParseResult.object e) (ht : e.type = some "candidate")
    (hnh : ¬ alookup s.hosts r = some ws) (hcl : alookup s.connections r = some clients) :
    handleMessage ready s r ws f =
      (s, (clients.filter (fun c => c != ws && ready c)).map (fun c => Output.send c e)) := by
  unfold handleMessage
  rw [if_neg hlen, hp]
  dsimp only
  have hoff : recordOfferState s r e = s := by
    unfold recordOfferState
    rw [if_neg (fun hh2 => by rw [ht] at hh2; exact absurd hh2 (by decide))]
  have hcand : recordCandidateState s r ws e = s := by
    unfold recordCandidateState
    rw [if_neg (fun hand => hnh hand.2)]
  rw [hoff, hcand, hcl]

/-- Witness for C8: guest 2 of room `ab` sends a candidate; the state is
unchanged and members 1 and 3 receive the relay. -/
theorem claim_C8_witness :
    handleMessage allReady sHost "ab" 2 candFrame =
      (sHost, [Output.send 1 envC, Output.send 3 envC]) :=
  (claim_C8 allReady sHost "ab" 2 candFrame envC [1, 2, 3] (by decide) (by decide)
    (by decide) (by decide) (by decide)).trans (by decide)

/-- Claim C9: a frame that fails JSON parsing or is not an object is dropped:
the channel stays open, nothing is relayed and the registry is unchanged. -/
theorem claim_C9 (ready : Nat → Bool) (s : ServerState) (r : String) (ws : Nat) (f : Frame)
    (hlen : ¬ f.length > 10000)
    (hmal : f.parsed = ParseResult.fail ∨ f.parsed = ParseResult.nonObject) :
    handleMessage ready s r ws f = (s, []) := by
  unfold handleMessage
  rw [if_neg hlen]
  rcases hmal with hm | hm <;> rw [hm]

/-- Witness for C9: a malformed frame against the offer-holding room produces
no output and no state change. -/
theorem claim_C9_witness :
    handleMessage allReady sOffer "ab" 1 malFrame = (sOffer, []) :=
  claim_C9 allReady sOffer "ab" 1 malFrame (by decide) (Or.inl (by decide))

/-- Claim C10: cached candidates are backfilled to a newcomer only together
with a cached offer; when no offer is cached, no delayed candidate send is
emitted at admission, whatever the candidate cache holds. -/
theorem claim_C10 (ready : Nat → Bool) (s : ServerState) (r : String) (ws : Nat)
    (hno : alookup s.lastSignals r = none) (m : Nat) (e : Envelope) :
    Output.sendDelayed m e ∉ (handleConnection ready s (some r) ws).2 :=
  (connect_no_signal_of_no_offer ready s r ws m e hno).2

/-- Witness for C10: room `ab` holds a cached candidate but no offer, and the
newcomer is sent no delayed candidate. -/
theorem claim_C10_witness :
    Output.sendDelayed 2 envC ∉ (handleConnection allReady sCand (some "ab") 2).2 :=
  claim_C10 allReady sCand "ab" 2 (by decide) 2 envC

end Litecall
